import Mathlib

/-!
# Verification of the `BFSearcher` bounded interprocedural distance search

Shallow embedding of `src/lib/Core/BFSearcher.cpp` (klee22). The search
engine computes the minimal weighted distance from a start instruction to a
target condition over LLVM control flow, with a call stack per search state,
a duplicate filter keyed on block-entry points, and three bounds
(`maxDistance`, `maxIterations`, `maxQueueLength`).

The program model (instructions, blocks, functions, call resolution) is the
external collaborator owned by LLVM in the original; it is embedded here as
concrete indexed lists. An instruction handle (`ProgPoint`) is a triple of
indices; identity of handles is equality of the triples. The configuration
constants, the priority order of the search queue (ascending
`distanceFromStart`), the `distanceToPass` weight function and the
`isTheTarget` predicate are declared in `BFSearcher.h`, which is not part of
the sources; they are modelled from the spec: positive integer bounds of C
type `uint` (32-bit), a nonnegative deterministic weight, an arbitrary
target predicate, and a min-priority queue.

`uint` arithmetic on distances is embedded as `Nat` reduced modulo `2^32`
at each addition; the `return -1` of `searchForMinimalDistance` is the value
`uintMax = 2^32 - 1`.

The fields `insertions` and `admittedLog` of `BFSearcher` are ghost
instrumentation: they are written exactly when `searchqueue.push` runs in
the original and are read by no operation, so they do not influence the
behaviour; they only record how many states, and which states, were ever
admitted into the frontier.
-/

/-- Modulus of the C `uint` type (32-bit unsigned). -/
def uintMod : Nat := 4294967296

/-- `(uint)(-1)`, the value produced by `return -1` in
`searchForMinimalDistance`; the UNREACHABLE sentinel. -/
def uintMax : Nat := 4294967295

/-- A borrowed instruction handle: function index, block index within the
function, instruction index within the block. Mirrors
`llvm::BasicBlock::iterator` positions; equality is identity of the
location. -/
structure ProgPoint where
  func : Nat
  block : Nat
  idx : Nat
deriving DecidableEq, Repr

/-- One instruction of the program model, as far as the searcher observes
it: a call (with its resolved callee, `none` for an indirect/unresolved
call), a return, a terminator with its successor blocks, or any other
instruction. -/
inductive Inst where
  | call (callee : Option Nat)
  | ret
  | terminator (succs : List Nat)
  | other
deriving DecidableEq, Repr

/-- A function of the program model: its intrinsic flag and its basic
blocks (block 0 is the entry block `front()`); `blocks = []` models
`llvm::Function::empty()` (a declaration without a body). -/
structure Func where
  isIntrinsic : Bool
  blocks : List (List Inst)
deriving DecidableEq, Repr

/-- The program model: functions indexed by `Nat`. -/
structure Program where
  funcs : List Func
deriving DecidableEq, Repr

/-- Function lookup. -/
def Program.getFunc (prog : Program) (f : Nat) : Option Func :=
  prog.funcs.get? f

/-- `isIntrinsic()` of function `f`. -/
def Program.isIntrinsicF (prog : Program) (f : Nat) : Bool :=
  match prog.getFunc f with
  | some F => F.isIntrinsic
  | none => false

/-- The list of basic blocks of function `f`. -/
def Program.blocksOf (prog : Program) (f : Nat) : List (List Inst) :=
  match prog.getFunc f with
  | some F => F.blocks
  | none => []

/-- Dereference an instruction handle; `none` models an invalid handle
(the null check `&*curr.instruction != NULL`). -/
def Program.instAt (prog : Program) (p : ProgPoint) : Option Inst :=
  match prog.getFunc p.func with
  | none => none
  | some F =>
    match F.blocks.get? p.block with
    | none => none
    | some b => b.get? p.idx

/-- The handle one past `p` in program order within its block,
`(++(curr.instruction))--` and `++(gobackto.call)` in the original. -/
def nextPoint (p : ProgPoint) : ProgPoint :=
  ⟨p.func, p.block, p.idx + 1⟩

/-- The first instruction of the entry block of function `f`,
`called->front().begin()` in the original. -/
def entryPoint (f : Nat) : ProgPoint :=
  ⟨f, 0, 0⟩

/-- `BFStackEntry`: one pending call site on the search-local call stack. -/
structure BFStackEntry where
  call : ProgPoint
deriving DecidableEq, Repr

/-- `BFSearchState`: instruction handle, cumulative distance
(`uint`, hence kept below `uintMod`), and the search-local call stack.
The stack is a list with the most recent pending call at its head
(`std::stack` top). -/
structure BFSearchState where
  instruction : ProgPoint
  distanceFromStart : Nat
  stack : List BFStackEntry
deriving DecidableEq, Repr

/-- The function called from the call site `p`:
`cast<CallInst>(p)->getCalledFunction()`, where `none` is the null result
of an unresolved call (and also the value when `p` does not denote a call
instruction, a case the original never reaches because stack entries are
only built from call sites). -/
def calleeOfCallSite (prog : Program) (p : ProgPoint) : Option Nat :=
  match prog.instAt p with
  | some (Inst.call c) => c
  | _ => none

/-- `BFSearchState::doesIntroduceRecursion`: true iff the function called
by `next` is also called by some entry already on this state's stack;
empty stacks never contain recursions. The original scans a copy of the
stack top to bottom and short-circuits on the first match, which
`List.any` reproduces. -/
def BFSearchState.doesIntroduceRecursion (prog : Program)
    (self : BFSearchState) (next : BFStackEntry) : Bool :=
  match self.stack with
  | [] => false
  | _ =>
    self.stack.any (fun probe =>
      calleeOfCallSite prog probe.call == calleeOfCallSite prog next.call)

/-- The condition `called && !called->isIntrinsic() && !called->empty()`
classifying a call as a call to a resolved, non-intrinsic, defined
function. -/
def isExpandableCall (prog : Program) (callee : Option Nat) : Bool :=
  match callee with
  | some f => !prog.isIntrinsicF f && !(prog.blocksOf f).isEmpty
  | none => false

/-- Configuration of one searcher instance. `prog`, `weight`
(`distanceToPass`), and `isTheTarget` are the external collaborators;
`maxDistance`, `maxIterations`, `maxQueueLength` are the three bounds.
Modelled from the spec: these members are declared in `BFSearcher.h`,
which is not among the sources; the spec fixes them as a deterministic
nonnegative weight, a boolean target predicate, and positive integer
(`uint`) bounds. -/
structure Config where
  prog : Program
  weight : ProgPoint → Nat
  isTheTarget : BFSearchState → Bool
  maxDistance : Nat
  maxIterations : Nat
  maxQueueLength : Nat

/-- `BFSearcher`: the per-query engine state. `searchqueue` is the
priority queue (embedded as a plain list; `queueTop?`/`popMin` realise the
ascending-distance priority order). `duplicateFilter` is the memo set of
(block-entry instruction, call stack) keys. `insertions` and `admittedLog`
are ghost instrumentation (see the file header). -/
structure BFSearcher where
  searchqueue : List BFSearchState
  duplicateFilter : List (ProgPoint × List BFStackEntry)
  iterationCounter : Nat
  insertions : Nat
  admittedLog : List BFSearchState
deriving DecidableEq, Repr

/-- Remove-and-return the minimum-distance state of the queue. The
priority order is modelled from the spec (`BFSearcher.h` owns the
comparator): ascending `distanceFromStart`, ties resolved
deterministically in favour of the leftmost (most recently inserted)
element — the spec leaves tie order unspecified. -/
def popMin : List BFSearchState → Option (BFSearchState × List BFSearchState)
  | [] => none
  | x :: xs =>
    match popMin xs with
    | none => some (x, [])
    | some (m, rest) =>
      if x.distanceFromStart ≤ m.distanceFromStart then some (x, xs)
      else some (m, x :: rest)

/-- `searchqueue.top()`: the element `popMin` would remove. -/
def queueTop? (q : List BFSearchState) : Option BFSearchState :=
  (popMin q).map Prod.fst

/-- The duplicate-filter key of a state. -/
def stateKey (st : BFSearchState) : ProgPoint × List BFStackEntry :=
  (st.instruction, st.stack)

/-- `&(state.instruction->getParent()->front()) == &*state.instruction`:
the state's instruction is the first instruction of its basic block. -/
def isFirstInBlock (st : BFSearchState) : Bool :=
  st.instruction.idx == 0

/-- `BFSearcher::wasAddedEarlier`: only states that are the first in their
basic block are looked up; every other state reports not seen. -/
def BFSearcher.wasAddedEarlier (s : BFSearcher) (st : BFSearchState) : Bool :=
  if isFirstInBlock st then decide (stateKey st ∈ s.duplicateFilter)
  else false

/-- `BFSearcher::rememberAsAdded`: only states that are the first in their
basic block are recorded; every other state records nothing. -/
def BFSearcher.rememberAsAdded (s : BFSearcher) (st : BFSearchState) :
    BFSearcher :=
  if isFirstInBlock st then
    { s with duplicateFilter := stateKey st :: s.duplicateFilter }
  else s

/-- `BFSearcher::addToSearchQueue`: push `st` iff it was not added earlier
and the current queue size is at most `maxQueueLength` (the original
comparison is `searchqueue.size() <= maxQueueLength`), and then remember
it in the duplicate filter; otherwise drop it silently. The ghost fields
record the push. -/
def BFSearcher.addToSearchQueue (cfg : Config) (s : BFSearcher)
    (st : BFSearchState) : BFSearcher :=
  if s.wasAddedEarlier st = false ∧ s.searchqueue.length ≤ cfg.maxQueueLength then
    BFSearcher.rememberAsAdded
      { s with
        searchqueue := st :: s.searchqueue
        insertions := s.insertions + 1
        admittedLog := st :: s.admittedLog } st
  else s

/-- `BFSearcher::popFromSeachQueue` (sic): remove and return the top
(minimum-distance) state. -/
def BFSearcher.popFromSeachQueue (s : BFSearcher) :
    Option (BFSearchState × BFSearcher) :=
  match popMin s.searchqueue with
  | none => none
  | some (m, rest) => some (m, { s with searchqueue := rest })

/-- The derived state built by `BFSearcher::enqueueInSearchQueue`: next
handle, old distance plus `distanceToPass(oldState.instruction)` in `uint`
arithmetic, and the given stack. -/
def derivedState (cfg : Config) (old : BFSearchState) (next : ProgPoint)
    (newStack : List BFStackEntry) : BFSearchState :=
  ⟨next, (old.distanceFromStart + cfg.weight old.instruction) % uintMod,
    newStack⟩

/-- The successor states that one expansion of `curr` (whose instruction
dereferences to `inst`) passes to `addToSearchQueue`, in order. This is
the body of `BFSearcher::doSingleSearchIteration` after the pop and the
null check:
* call to a resolved, non-intrinsic, defined function: nothing if the
  call introduces recursion, else one state at the callee's entry with the
  call site pushed on the stack;
* any other call: one state at the next handle in program order, same
  stack;
* return: nothing if the stack is empty, else one state just past the top
  entry's call site with that entry popped;
* terminator: one state at each successor block's first instruction, same
  stack;
* other: one state at the next handle in program order, same stack. -/
def successorsOf (cfg : Config) (curr : BFSearchState) (inst : Inst) :
    List BFSearchState :=
  match inst with
  | Inst.call callee =>
    if isExpandableCall cfg.prog callee then
      match callee with
      | some f =>
        let next : BFStackEntry := ⟨curr.instruction⟩
        if curr.doesIntroduceRecursion cfg.prog next then []
        else [derivedState cfg curr (entryPoint f) (next :: curr.stack)]
      | none => []
    else [derivedState cfg curr (nextPoint curr.instruction) curr.stack]
  | Inst.ret =>
    match curr.stack with
    | [] => []
    | gobackto :: rest =>
      [derivedState cfg curr (nextPoint gobackto.call) rest]
  | Inst.terminator succs =>
    succs.map (fun b =>
      derivedState cfg curr ⟨curr.instruction.func, b, 0⟩ curr.stack)
  | Inst.other =>
    [derivedState cfg curr (nextPoint curr.instruction) curr.stack]

/-- `BFSearcher::doSingleSearchIteration`: pop the minimum state; `none`
models the aborting `assert(&*curr.instruction != NULL)` when the popped
handle is invalid (and also the impossible pop from an empty queue, which
the driver never performs); otherwise admit each successor through
`addToSearchQueue` in order. -/
def doSingleSearchIteration (cfg : Config) (s : BFSearcher) :
    Option BFSearcher :=
  match s.popFromSeachQueue with
  | none => none
  | some (curr, s1) =>
    match cfg.prog.instAt curr.instruction with
    | none => none
    | some inst =>
      some ((successorsOf cfg curr inst).foldl
        (fun acc st => acc.addToSearchQueue cfg st) s1)

/-- The driver loop of `BFSearcher::searchForMinimalDistance`, with fuel
(the loop needs at most `maxIterations` iterations, see
`searchRun_steps_le`). The result triple is (returned value, final
searcher, number of expansion steps performed); the original returns only
the first component, the other two are ghost observations. `none` as
first component models the abort of `doSingleSearchIteration`. -/
def searchRun (cfg : Config) (s : BFSearcher) :
    Nat → Option Nat × BFSearcher × Nat
  | 0 => (some uintMax, s, 0)
  | fuel + 1 =>
    match queueTop? s.searchqueue with
    | none => (some uintMax, s, 0)
    | some t =>
      if t.distanceFromStart < cfg.maxDistance ∧
          s.iterationCounter < cfg.maxIterations then
        if cfg.isTheTarget t then (some t.distanceFromStart, s, 0)
        else
          match doSingleSearchIteration cfg s with
          | none => (none, s, 0)
          | some s' =>
            let r := searchRun cfg
              { s' with iterationCounter := s'.iterationCounter + 1 } fuel
            (r.1, r.2.1, r.2.2 + 1)
      else (some uintMax, s, 0)

/-- `BFSearcher::searchForMinimalDistance`: run the driver loop;
`maxIterations + 1` fuel is never exhausted. -/
def searchForMinimalDistance (cfg : Config) (s : BFSearcher) : Option Nat :=
  (searchRun cfg s (cfg.maxIterations + 1)).1

/-- The searcher with empty queue, filter and counters, before the
constructor's initial insertion. -/
def emptySearcher : BFSearcher :=
  ⟨[], [], 0, 0, []⟩

/-- `BFSearcher::BFSearcher(llvm::Instruction* start)`: admit the start
state at distance 0 with a fresh stack. -/
def BFSearcher.mkFromStart (cfg : Config) (start : ProgPoint) : BFSearcher :=
  emptySearcher.addToSearchQueue cfg ⟨start, 0, []⟩

/-- `BFSearcher::BFSearcher(start, stack)`: admit the start state at
distance 0 with a stack pre-populated from the outer-to-inner list of
call sites (the constructor pushes the list front to back, so the last
list element becomes the top of the stack). -/
def BFSearcher.mkFromStartStack (cfg : Config) (start : ProgPoint)
    (stack : List ProgPoint) : BFSearcher :=
  emptySearcher.addToSearchQueue cfg
    ⟨start, 0, (stack.map BFStackEntry.mk).reverse⟩

/-! ## Basic lemmas about the queue and the admission operation -/

theorem popMin_eq_none {q : List BFSearchState}
    (h : popMin q = none) : q = [] := by
  cases q with
  | nil => rfl
  | cons x xs =>
    unfold popMin at h
    rcases hx : popMin xs with _ | ⟨m, rest⟩ <;> rw [hx] at h <;> simp at h
    split at h <;> simp at h

theorem popMin_length {q : List BFSearchState} {m : BFSearchState}
    {rest : List BFSearchState} (h : popMin q = some (m, rest)) :
    rest.length + 1 = q.length := by
  induction q generalizing m rest with
  | nil => simp [popMin] at h
  | cons x xs ih =>
    unfold popMin at h
    rcases hx : popMin xs with _ | ⟨m', rest'⟩ <;> rw [hx] at h <;> simp at h
    · obtain ⟨-, h2⟩ := h
      have hxs := popMin_eq_none hx
      subst hxs h2
      rfl
    · split at h <;> simp at h
      · obtain ⟨-, h2⟩ := h
        subst h2
        rfl
      · obtain ⟨-, h2⟩ := h
        subst h2
        have := ih hx
        simp only [List.length_cons]
        omega

theorem rememberAsAdded_searchqueue (s : BFSearcher) (st : BFSearchState) :
    (s.rememberAsAdded st).searchqueue = s.searchqueue := by
  unfold BFSearcher.rememberAsAdded
  split <;> rfl

theorem rememberAsAdded_iterationCounter (s : BFSearcher) (st : BFSearchState) :
    (s.rememberAsAdded st).iterationCounter = s.iterationCounter := by
  unfold BFSearcher.rememberAsAdded
  split <;> rfl

theorem rememberAsAdded_insertions (s : BFSearcher) (st : BFSearchState) :
    (s.rememberAsAdded st).insertions = s.insertions := by
  unfold BFSearcher.rememberAsAdded
  split <;> rfl

theorem rememberAsAdded_admittedLog (s : BFSearcher) (st : BFSearchState) :
    (s.rememberAsAdded st).admittedLog = s.admittedLog := by
  unfold BFSearcher.rememberAsAdded
  split <;> rfl

theorem addToSearchQueue_pushed (cfg : Config) (s : BFSearcher)
    (st : BFSearchState)
    (h : s.wasAddedEarlier st = false ∧
      s.searchqueue.length ≤ cfg.maxQueueLength) :
    s.addToSearchQueue cfg st =
      BFSearcher.rememberAsAdded
        { s with
          searchqueue := st :: s.searchqueue
          insertions := s.insertions + 1
          admittedLog := st :: s.admittedLog } st := by
  unfold BFSearcher.addToSearchQueue
  exact if_pos h

theorem addToSearchQueue_dropped (cfg : Config) (s : BFSearcher)
    (st : BFSearchState)
    (h : ¬(s.wasAddedEarlier st = false ∧
      s.searchqueue.length ≤ cfg.maxQueueLength)) :
    s.addToSearchQueue cfg st = s := by
  unfold BFSearcher.addToSearchQueue
  exact if_neg h

theorem addToSearchQueue_queue_cases (cfg : Config) (s : BFSearcher)
    (st : BFSearchState) :
    (s.addToSearchQueue cfg st).searchqueue = st :: s.searchqueue ∨
      (s.addToSearchQueue cfg st).searchqueue = s.searchqueue := by
  by_cases h : s.wasAddedEarlier st = false ∧
      s.searchqueue.length ≤ cfg.maxQueueLength
  · left
    rw [addToSearchQueue_pushed cfg s st h, rememberAsAdded_searchqueue]
  · right
    rw [addToSearchQueue_dropped cfg s st h]

theorem addToSearchQueue_iterationCounter (cfg : Config) (s : BFSearcher)
    (st : BFSearchState) :
    (s.addToSearchQueue cfg st).iterationCounter = s.iterationCounter := by
  by_cases h : s.wasAddedEarlier st = false ∧
      s.searchqueue.length ≤ cfg.maxQueueLength
  · rw [addToSearchQueue_pushed cfg s st h, rememberAsAdded_iterationCounter]
  · rw [addToSearchQueue_dropped cfg s st h]

theorem addToSearchQueue_insertions_cases (cfg : Config) (s : BFSearcher)
    (st : BFSearchState) :
    ((s.addToSearchQueue cfg st).insertions = s.insertions + 1 ∧
       s.searchqueue.length ≤ cfg.maxQueueLength) ∨
      s.addToSearchQueue cfg st = s := by
  by_cases h : s.wasAddedEarlier st = false ∧
      s.searchqueue.length ≤ cfg.maxQueueLength
  · left
    rw [addToSearchQueue_pushed cfg s st h, rememberAsAdded_insertions]
    exact ⟨rfl, h.2⟩
  · right
    exact addToSearchQueue_dropped cfg s st h

theorem addToSearchQueue_length_le (cfg : Config) (s : BFSearcher)
    (st : BFSearchState)
    (h : s.searchqueue.length ≤ cfg.maxQueueLength + 1) :
    (s.addToSearchQueue cfg st).searchqueue.length ≤
      cfg.maxQueueLength + 1 := by
  by_cases hc : s.wasAddedEarlier st = false ∧
      s.searchqueue.length ≤ cfg.maxQueueLength
  · rw [addToSearchQueue_pushed cfg s st hc, rememberAsAdded_searchqueue]
    simp only [List.length_cons]
    omega
  · rw [addToSearchQueue_dropped cfg s st hc]
    exact h

theorem foldl_addToSearchQueue_length_le (cfg : Config)
    (l : List BFSearchState) :
    ∀ s : BFSearcher, s.searchqueue.length ≤ cfg.maxQueueLength + 1 →
      (l.foldl (fun acc st => acc.addToSearchQueue cfg st) s).searchqueue.length ≤
        cfg.maxQueueLength + 1 := by
  induction l with
  | nil => intro s h; exact h
  | cons x xs ih =>
    intro s h
    simp only [List.foldl_cons]
    exact ih _ (addToSearchQueue_length_le cfg s x h)

theorem foldl_addToSearchQueue_iterationCounter (cfg : Config)
    (l : List BFSearchState) :
    ∀ s : BFSearcher,
      (l.foldl (fun acc st => acc.addToSearchQueue cfg st) s).iterationCounter =
        s.iterationCounter := by
  induction l with
  | nil => intro s; rfl
  | cons x xs ih =>
    intro s
    simp only [List.foldl_cons]
    rw [ih, addToSearchQueue_iterationCounter]

theorem popFromSeachQueue_eq (s : BFSearcher) (m : BFSearchState)
    (rest : List BFSearchState) (h : popMin s.searchqueue = some (m, rest)) :
    s.popFromSeachQueue = some (m, { s with searchqueue := rest }) := by
  unfold BFSearcher.popFromSeachQueue
  rw [h]

theorem popFromSeachQueue_inv (s : BFSearcher) (curr : BFSearchState)
    (s1 : BFSearcher) (h : s.popFromSeachQueue = some (curr, s1)) :
    s1.searchqueue.length + 1 = s.searchqueue.length ∧
      s1.duplicateFilter = s.duplicateFilter ∧
      s1.iterationCounter = s.iterationCounter ∧
      s1.insertions = s.insertions ∧
      s1.admittedLog = s.admittedLog := by
  unfold BFSearcher.popFromSeachQueue at h
  rcases hq : popMin s.searchqueue with _ | ⟨m, rest⟩ <;> rw [hq] at h
  · exact absurd h (by simp)
  · simp only [Option.some.injEq, Prod.mk.injEq] at h
    obtain ⟨-, h2⟩ := h
    subst h2
    exact ⟨popMin_length hq, rfl, rfl, rfl, rfl⟩

theorem doSingleSearchIteration_eq (cfg : Config) (s s1 : BFSearcher)
    (curr : BFSearchState) (inst : Inst)
    (hpop : s.popFromSeachQueue = some (curr, s1))
    (hinst : cfg.prog.instAt curr.instruction = some inst) :
    doSingleSearchIteration cfg s =
      some ((successorsOf cfg curr inst).foldl
        (fun acc st => acc.addToSearchQueue cfg st) s1) := by
  unfold doSingleSearchIteration
  rw [hpop]
  simp only [hinst]

theorem doSingleSearchIteration_none_of_invalid (cfg : Config)
    (s s1 : BFSearcher) (curr : BFSearchState)
    (hpop : s.popFromSeachQueue = some (curr, s1))
    (hinst : cfg.prog.instAt curr.instruction = none) :
    doSingleSearchIteration cfg s = none := by
  unfold doSingleSearchIteration
  rw [hpop]
  simp only [hinst]

theorem doSingleSearchIteration_cases (cfg : Config) (s s' : BFSearcher)
    (h : doSingleSearchIteration cfg s = some s') :
    ∃ curr s1 inst, s.popFromSeachQueue = some (curr, s1) ∧
      cfg.prog.instAt curr.instruction = some inst ∧
      s' = (successorsOf cfg curr inst).foldl
        (fun acc st => acc.addToSearchQueue cfg st) s1 := by
  unfold doSingleSearchIteration at h
  rcases hpop : s.popFromSeachQueue with _ | ⟨curr, s1⟩ <;> rw [hpop] at h
  · exact absurd h (by simp)
  · simp only at h
    rcases hinst : cfg.prog.instAt curr.instruction with _ | inst <;>
      rw [hinst] at h
    · exact absurd h (by simp)
    · simp only [Option.some.injEq] at h
      exact ⟨curr, s1, inst, rfl, hinst, h.symm⟩

theorem doSingleSearchIteration_length_le (cfg : Config) (s s' : BFSearcher)
    (hlen : s.searchqueue.length ≤ cfg.maxQueueLength + 1)
    (h : doSingleSearchIteration cfg s = some s') :
    s'.searchqueue.length ≤ cfg.maxQueueLength + 1 := by
  obtain ⟨curr, s1, inst, hpop, hinst, hs'⟩ :=
    doSingleSearchIteration_cases cfg s s' h
  subst hs'
  apply foldl_addToSearchQueue_length_le
  have := (popFromSeachQueue_inv s curr s1 hpop).1
  omega

theorem doSingleSearchIteration_iterationCounter (cfg : Config)
    (s s' : BFSearcher) (h : doSingleSearchIteration cfg s = some s') :
    s'.iterationCounter = s.iterationCounter := by
  obtain ⟨curr, s1, inst, hpop, hinst, hs'⟩ :=
    doSingleSearchIteration_cases cfg s s' h
  subst hs'
  rw [foldl_addToSearchQueue_iterationCounter]
  exact (popFromSeachQueue_inv s curr s1 hpop).2.2.1

/-! ## Unfolding equations of the driver loop -/

theorem searchRun_zero (cfg : Config) (s : BFSearcher) :
    searchRun cfg s 0 = (some uintMax, s, 0) := rfl

theorem searchRun_succ_empty (cfg : Config) (s : BFSearcher) (fuel : Nat)
    (h : queueTop? s.searchqueue = none) :
    searchRun cfg s (fuel + 1) = (some uintMax, s, 0) := by
  unfold searchRun
  rw [h]

theorem searchRun_succ_stop (cfg : Config) (s : BFSearcher) (fuel : Nat)
    (t : BFSearchState) (h : queueTop? s.searchqueue = some t)
    (hg : ¬(t.distanceFromStart < cfg.maxDistance ∧
      s.iterationCounter < cfg.maxIterations)) :
    searchRun cfg s (fuel + 1) = (some uintMax, s, 0) := by
  unfold searchRun
  rw [h]
  dsimp only
  rw [if_neg hg]

theorem searchRun_succ_found (cfg : Config) (s : BFSearcher) (fuel : Nat)
    (t : BFSearchState) (h : queueTop? s.searchqueue = some t)
    (hg : t.distanceFromStart < cfg.maxDistance ∧
      s.iterationCounter < cfg.maxIterations)
    (htar : cfg.isTheTarget t = true) :
    searchRun cfg s (fuel + 1) = (some t.distanceFromStart, s, 0) := by
  unfold searchRun
  rw [h]
  dsimp only
  rw [if_pos hg, htar]
  rfl

theorem searchRun_succ_abort (cfg : Config) (s : BFSearcher) (fuel : Nat)
    (t : BFSearchState) (h : queueTop? s.searchqueue = some t)
    (hg : t.distanceFromStart < cfg.maxDistance ∧
      s.iterationCounter < cfg.maxIterations)
    (htar : cfg.isTheTarget t = false)
    (hds : doSingleSearchIteration cfg s = none) :
    searchRun cfg s (fuel + 1) = (none, s, 0) := by
  unfold searchRun
  rw [h]
  dsimp only
  rw [if_pos hg, htar, if_neg Bool.false_ne_true, hds]

theorem searchRun_succ_step (cfg : Config) (s s' : BFSearcher) (fuel : Nat)
    (t : BFSearchState) (h : queueTop? s.searchqueue = some t)
    (hg : t.distanceFromStart < cfg.maxDistance ∧
      s.iterationCounter < cfg.maxIterations)
    (htar : cfg.isTheTarget t = false)
    (hds : doSingleSearchIteration cfg s = some s') :
    searchRun cfg s (fuel + 1) =
      ((searchRun cfg { s' with iterationCounter := s'.iterationCounter + 1 } fuel).1,
       (searchRun cfg { s' with iterationCounter := s'.iterationCounter + 1 } fuel).2.1,
       (searchRun cfg { s' with iterationCounter := s'.iterationCounter + 1 } fuel).2.2 + 1) := by
  conv_lhs => unfold searchRun
  rw [h]
  dsimp only
  rw [if_pos hg, htar, if_neg Bool.false_ne_true, hds]

/-- Every value the driver loop returns is the sentinel or a distance
below `maxDistance` (the target is only tested on a frontier minimum whose
distance passed the guard). -/
theorem searchRun_fst_cases (cfg : Config) :
    ∀ (fuel : Nat) (s : BFSearcher) (r : Nat),
      (searchRun cfg s fuel).1 = some r →
        r = uintMax ∨ r < cfg.maxDistance := by
  intro fuel
  induction fuel with
  | zero =>
    intro s r h
    rw [searchRun_zero] at h
    simp at h
    exact Or.inl h.symm
  | succ fuel ih =>
    intro s r h
    rcases ht : queueTop? s.searchqueue with _ | t
    · rw [searchRun_succ_empty cfg s fuel ht] at h
      simp at h
      exact Or.inl h.symm
    · by_cases hg : t.distanceFromStart < cfg.maxDistance ∧
        s.iterationCounter < cfg.maxIterations
      · rcases htar : cfg.isTheTarget t with _ | _
        · rcases hds : doSingleSearchIteration cfg s with _ | s'
          · rw [searchRun_succ_abort cfg s fuel t ht hg htar hds] at h
            simp at h
          · rw [searchRun_succ_step cfg s s' fuel t ht hg htar hds] at h
            exact ih _ r h
        · rw [searchRun_succ_found cfg s fuel t ht hg htar] at h
          simp at h
          subst h
          exact Or.inr hg.1
      · rw [searchRun_succ_stop cfg s fuel t ht hg] at h
        simp at h
        exact Or.inl h.symm

/-- The number of expansion steps the driver loop performs is bounded by
the iterations remaining below `maxIterations`. -/
theorem searchRun_steps_le (cfg : Config) :
    ∀ (fuel : Nat) (s : BFSearcher),
      (searchRun cfg s fuel).2.2 ≤
        cfg.maxIterations - s.iterationCounter := by
  intro fuel
  induction fuel with
  | zero =>
    intro s
    rw [searchRun_zero]
    simp
  | succ fuel ih =>
    intro s
    rcases ht : queueTop? s.searchqueue with _ | t
    · rw [searchRun_succ_empty cfg s fuel ht]
      simp
    · by_cases hg : t.distanceFromStart < cfg.maxDistance ∧
        s.iterationCounter < cfg.maxIterations
      · rcases htar : cfg.isTheTarget t with _ | _
        · rcases hds : doSingleSearchIteration cfg s with _ | s'
          · rw [searchRun_succ_abort cfg s fuel t ht hg htar hds]
            simp
          · rw [searchRun_succ_step cfg s s' fuel t ht hg htar hds]
            have hc := doSingleSearchIteration_iterationCounter cfg s s' hds
            have hrec :=
              ih { s' with iterationCounter := s'.iterationCounter + 1 }
            simp only at hrec
            simp only
            omega
        · rw [searchRun_succ_found cfg s fuel t ht hg htar]
          simp
      · rw [searchRun_succ_stop cfg s fuel t ht hg]
        simp

/-! ## The duplicate-filter invariant -/

/-- No two states admitted into the frontier (logged in `admittedLog`)
share the same (block-entry instruction, call stack) key. -/
def NoTwoAdmittedShareKey (s : BFSearcher) : Prop :=
  s.admittedLog.Pairwise
    (fun a b => ¬(isFirstInBlock a = true ∧ stateKey a = stateKey b))

/-- Inductive invariant tying the log to the filter: every admitted
block-entry state is recorded in the filter, and no key was admitted
twice. -/
def FilterInv (s : BFSearcher) : Prop :=
  (∀ a ∈ s.admittedLog, isFirstInBlock a = true →
    stateKey a ∈ s.duplicateFilter) ∧ NoTwoAdmittedShareKey s

theorem wasAddedEarlier_false_not_mem (s : BFSearcher) (st : BFSearchState)
    (hW : s.wasAddedEarlier st = false) (hf : isFirstInBlock st = true) :
    stateKey st ∉ s.duplicateFilter := by
  unfold BFSearcher.wasAddedEarlier at hW
  rw [if_pos hf] at hW
  exact of_decide_eq_false hW

theorem stateKey_eq_isFirst {a b : BFSearchState}
    (h : stateKey a = stateKey b) : isFirstInBlock a = isFirstInBlock b := by
  unfold stateKey at h
  unfold isFirstInBlock
  simp only [Prod.mk.injEq] at h
  rw [h.1]

theorem filterInv_addToSearchQueue (cfg : Config) (s : BFSearcher)
    (st : BFSearchState) (hinv : FilterInv s) :
    FilterInv (s.addToSearchQueue cfg st) := by
  by_cases hc : s.wasAddedEarlier st = false ∧
      s.searchqueue.length ≤ cfg.maxQueueLength
  · rw [addToSearchQueue_pushed cfg s st hc]
    unfold BFSearcher.rememberAsAdded
    by_cases hf : isFirstInBlock st
    · rw [if_pos hf]
      constructor
      · intro a ha hfa
        simp only [List.mem_cons] at ha ⊢
        rcases ha with rfl | ha
        · exact Or.inl rfl
        · exact Or.inr (hinv.1 a ha hfa)
      · unfold NoTwoAdmittedShareKey
        simp only [List.pairwise_cons]
        refine ⟨?_, hinv.2⟩
        rintro b hb ⟨-, hkey⟩
        have hfb : isFirstInBlock b = true := (stateKey_eq_isFirst hkey) ▸ hf
        have hmem : stateKey b ∈ s.duplicateFilter := hinv.1 b hb hfb
        rw [← hkey] at hmem
        exact wasAddedEarlier_false_not_mem s st hc.1 hf hmem
    · rw [if_neg hf]
      constructor
      · intro a ha hfa
        simp only [List.mem_cons] at ha
        rcases ha with rfl | ha
        · exact absurd hfa (by simpa using hf)
        · exact hinv.1 a ha hfa
      · unfold NoTwoAdmittedShareKey
        simp only [List.pairwise_cons]
        refine ⟨?_, hinv.2⟩
        rintro b hb ⟨hfst, -⟩
        exact hf hfst
  · rw [addToSearchQueue_dropped cfg s st hc]
    exact hinv

theorem filterInv_foldl (cfg : Config) (l : List BFSearchState) :
    ∀ s : BFSearcher, FilterInv s →
      FilterInv (l.foldl (fun acc st => acc.addToSearchQueue cfg st) s) := by
  induction l with
  | nil => intro s h; exact h
  | cons x xs ih =>
    intro s h
    simp only [List.foldl_cons]
    exact ih _ (filterInv_addToSearchQueue cfg s x h)

theorem filterInv_doSingleSearchIteration (cfg : Config) (s s' : BFSearcher)
    (hinv : FilterInv s) (h : doSingleSearchIteration cfg s = some s') :
    FilterInv s' := by
  obtain ⟨curr, s1, inst, hpop, hinst, hs'⟩ :=
    doSingleSearchIteration_cases cfg s s' h
  subst hs'
  apply filterInv_foldl
  obtain ⟨-, hfil, -, -, hlog⟩ := popFromSeachQueue_inv s curr s1 hpop
  unfold FilterInv NoTwoAdmittedShareKey at hinv ⊢
  rw [hfil, hlog]
  exact hinv

theorem filterInv_empty : FilterInv emptySearcher := by
  constructor
  · intro a ha
    simp [emptySearcher] at ha
  · unfold NoTwoAdmittedShareKey emptySearcher
    simp

/-- The searcher states a query can pass through: the constructed searcher,
one expansion step (`doSingleSearchIteration`), and the iteration-counter
increment the driver performs after each step. -/
inductive Reaches (cfg : Config) : BFSearcher → BFSearcher → Prop where
  | refl (s : BFSearcher) : Reaches cfg s s
  | step {s t u : BFSearcher} : Reaches cfg s t →
      doSingleSearchIteration cfg t = some u → Reaches cfg s u
  | tick {s t : BFSearcher} : Reaches cfg s t →
      Reaches cfg s { t with iterationCounter := t.iterationCounter + 1 }

theorem filterInv_reaches (cfg : Config) (s0 s' : BFSearcher)
    (h0 : FilterInv s0) (h : Reaches cfg s0 s') : FilterInv s' := by
  induction h with
  | refl => exact h0
  | step hr hds ih => exact filterInv_doSingleSearchIteration cfg _ _ ih hds
  | tick hr ih =>
    unfold FilterInv NoTwoAdmittedShareKey at ih ⊢
    exact ih

theorem doesIntroduceRecursion_eq_any (prog : Program) (st : BFSearchState)
    (next : BFStackEntry) :
    st.doesIntroduceRecursion prog next =
      st.stack.any (fun probe =>
        calleeOfCallSite prog probe.call == calleeOfCallSite prog next.call) := by
  unfold BFSearchState.doesIntroduceRecursion
  cases hs : st.stack with
  | nil => rfl
  | cons x xs => rfl

/-! ## Concrete programs used by witnesses and counterexamples -/

/-- Program with a call to a defined function, an unresolved call, a call
to an intrinsic, and returns: function 0 is
`[call f1, call unresolved, call f2, ret]`, function 1 is `[ret]`,
function 2 is intrinsic. -/
def progA : Program :=
  ⟨[⟨false, [[Inst.call (some 1), Inst.call none, Inst.call (some 2),
      Inst.ret]]⟩,
    ⟨false, [[Inst.ret]]⟩,
    ⟨true, [[Inst.ret]]⟩]⟩

/-- Configuration over `progA`: unit weights, target at handle (0,0,3),
generous bounds. -/
def cfgA : Config :=
  ⟨progA, fun _ => 1, fun st => st.instruction == ⟨0, 0, 3⟩, 100, 100, 100⟩

/-- One basic block ending in a two-way branch, both successor blocks
containing a single ordinary instruction. -/
def progB : Program :=
  ⟨[⟨false, [[Inst.terminator [1, 2]], [Inst.other], [Inst.other]]⟩]⟩

/-- Configuration over `progB` with `maxQueueLength = 1`. -/
def cfgB : Config :=
  ⟨progB, fun _ => 1, fun _ => false, 100, 10, 1⟩

/-- A single straight-line block `[other, other, ret]`. -/
def progC : Program :=
  ⟨[⟨false, [[Inst.other, Inst.other, Inst.ret]]⟩]⟩

/-- Configuration over `progC` with `maxQueueLength = 1`. -/
def cfgC : Config :=
  ⟨progC, fun _ => 1, fun _ => false, 100, 10, 1⟩

/-- Configuration over `progA` whose `maxDistance` is 1, so that a state
at distance 5 fails the distance guard. -/
def cfgD : Config :=
  ⟨progA, fun _ => 1, fun st => st.instruction == ⟨0, 0, 3⟩, 1, 100, 100⟩

/-- A searcher about to pop the call at (0,0,0) of `progA`. -/
def searcherAtCall : BFSearcher :=
  ⟨[⟨⟨0, 0, 0⟩, 0, []⟩], [], 0, 0, []⟩

/-- `searcherAtCall` after the pop. -/
def searcherAtCallRest : BFSearcher :=
  ⟨[], [], 0, 0, []⟩

/-- A searcher about to pop the return of function 1 of `progA`, with one
pending call site (0,0,0) on the stack, at distance 3. -/
def searcherAtRet : BFSearcher :=
  ⟨[⟨⟨1, 0, 0⟩, 3, [⟨⟨0, 0, 0⟩⟩]⟩], [], 0, 0, []⟩

/-- A searcher about to pop the unresolved call at (0,0,1) of `progA`, at
distance 2. -/
def searcherAtOpaque : BFSearcher :=
  ⟨[⟨⟨0, 0, 1⟩, 2, []⟩], [], 0, 0, []⟩

/-- A searcher whose queue minimum carries an invalid instruction handle
(function 5 does not exist in `progA`). -/
def searcherAtInvalid : BFSearcher :=
  ⟨[⟨⟨5, 0, 0⟩, 0, []⟩], [], 0, 0, []⟩

/-- A searcher whose queue minimum is the target of `cfgD` at distance 5,
at or beyond `cfgD.maxDistance = 1`. -/
def searcherFarTarget : BFSearcher :=
  ⟨[⟨⟨0, 0, 3⟩, 5, []⟩], [], 0, 0, []⟩

/-! ## The claims -/

/-- C3: `doesIntroduceRecursion(stack, nextEntry)` returns true if and
only if the function called from `nextEntry`'s call site is identical to
the function called from the call site of some entry already in the
stack; for an empty stack it always returns false. -/
theorem bf_C3_recursion_iff (prog : Program) (st : BFSearchState)
    (next : BFStackEntry) :
    (st.doesIntroduceRecursion prog next = true ↔
      ∃ e ∈ st.stack,
        calleeOfCallSite prog e.call = calleeOfCallSite prog next.call) ∧
    (st.stack = [] → st.doesIntroduceRecursion prog next = false) := by
  constructor
  · rw [doesIntroduceRecursion_eq_any]
    simp [List.any_eq_true]
  · intro hs
    rw [doesIntroduceRecursion_eq_any, hs]
    rfl

/-- Witness for C3: in `progA`, probing a stack holding the call site
(0,0,0) (which calls function 1) with another entry for the same call
site detects recursion. -/
theorem bf_C3_recursion_iff_witness :
    BFSearchState.doesIntroduceRecursion progA
      ⟨⟨1, 0, 0⟩, 1, [⟨⟨0, 0, 0⟩⟩]⟩ ⟨⟨0, 0, 0⟩⟩ = true :=
  (bf_C3_recursion_iff progA ⟨⟨1, 0, 0⟩, 1, [⟨⟨0, 0, 0⟩⟩]⟩ ⟨⟨0, 0, 0⟩⟩).1.mpr
    ⟨⟨⟨0, 0, 0⟩⟩, by decide, by decide⟩

/-- C2: popping a state at a call to a resolvable, non-intrinsic, defined
function `F`: if pushing a new stack entry for this call site would
introduce recursion, no successor at all is produced; otherwise exactly
one successor is enqueued at the first instruction of `F`'s entry block,
with distance equal to the popped distance plus the weight of the call
point, and with the popped stack extended by an entry for this call
site. -/
theorem bf_C2_call_expansion (cfg : Config) (s s1 : BFSearcher)
    (curr : BFSearchState) (f : Nat)
    (hpop : s.popFromSeachQueue = some (curr, s1))
    (hinst : cfg.prog.instAt curr.instruction = some (Inst.call (some f)))
    (hexp : isExpandableCall cfg.prog (some f) = true) :
    doSingleSearchIteration cfg s =
      some (if curr.doesIntroduceRecursion cfg.prog ⟨curr.instruction⟩
        then s1
        else s1.addToSearchQueue cfg
          ⟨entryPoint f,
           (curr.distanceFromStart + cfg.weight curr.instruction) % uintMod,
           ⟨curr.instruction⟩ :: curr.stack⟩) := by
  rw [doSingleSearchIteration_eq cfg s s1 curr (Inst.call (some f)) hpop hinst]
  dsimp only [successorsOf]
  rw [hexp]
  simp only [if_true]
  cases hrec : curr.doesIntroduceRecursion cfg.prog ⟨curr.instruction⟩ with
  | false => simp [hrec, derivedState]
  | true => simp [hrec]

/-- Witness for C2: popping the state at the call (0,0,0) of `progA`
(callee function 1, defined, not intrinsic, empty stack so no recursion)
enqueues exactly the state at function 1's entry, distance 1, with the
call site pushed. -/
theorem bf_C2_call_expansion_witness :
    doSingleSearchIteration cfgA searcherAtCall =
      some (searcherAtCallRest.addToSearchQueue cfgA
        ⟨entryPoint 1, 1, [⟨⟨0, 0, 0⟩⟩]⟩) := by
  rw [bf_C2_call_expansion cfgA searcherAtCall searcherAtCallRest
    ⟨⟨0, 0, 0⟩, 0, []⟩ 1 rfl rfl (by decide)]
  decide

/-- C4: popping a state at a return instruction: with a non-empty call
stack, exactly one successor is enqueued at the handle immediately after
the top stack entry's call site, with the top entry removed and the
distance incremented by the weight of the return point; with an empty
stack no successor is produced. -/
theorem bf_C4_return_expansion (cfg : Config) (s s1 : BFSearcher)
    (curr : BFSearchState)
    (hpop : s.popFromSeachQueue = some (curr, s1))
    (hinst : cfg.prog.instAt curr.instruction = some Inst.ret) :
    doSingleSearchIteration cfg s =
      some (match curr.stack with
        | [] => s1
        | gobackto :: rest =>
          s1.addToSearchQueue cfg
            ⟨nextPoint gobackto.call,
             (curr.distanceFromStart + cfg.weight curr.instruction) % uintMod,
             rest⟩) := by
  rw [doSingleSearchIteration_eq cfg s s1 curr Inst.ret hpop hinst]
  dsimp only [successorsOf]
  cases curr.stack with
  | nil => rfl
  | cons gobackto rest => simp [derivedState]

/-- Witness for C4: popping the state at the return (1,0,0) of `progA`
with pending call site (0,0,0) at distance 3 enqueues exactly the state
at (0,0,1) at distance 4 with the emptied stack. -/
theorem bf_C4_return_expansion_witness :
    doSingleSearchIteration cfgA searcherAtRet =
      some (searcherAtCallRest.addToSearchQueue cfgA ⟨⟨0, 0, 1⟩, 4, []⟩) := by
  rw [bf_C4_return_expansion cfgA searcherAtRet searcherAtCallRest
    ⟨⟨1, 0, 0⟩, 3, [⟨⟨0, 0, 0⟩⟩]⟩ rfl rfl]
  decide

/-- C6: popping a state at a call whose callee is unresolved, intrinsic,
or without a body: the call is treated as an ordinary sequential
instruction — exactly one successor is enqueued at the next handle in
program order, with the same call stack, and the distance incremented by
exactly the single weight of the call point. -/
theorem bf_C6_opaque_call (cfg : Config) (s s1 : BFSearcher)
    (curr : BFSearchState) (callee : Option Nat)
    (hpop : s.popFromSeachQueue = some (curr, s1))
    (hinst : cfg.prog.instAt curr.instruction = some (Inst.call callee))
    (hexp : isExpandableCall cfg.prog callee = false) :
    doSingleSearchIteration cfg s =
      some (s1.addToSearchQueue cfg
        ⟨nextPoint curr.instruction,
         (curr.distanceFromStart + cfg.weight curr.instruction) % uintMod,
         curr.stack⟩) := by
  rw [doSingleSearchIteration_eq cfg s s1 curr (Inst.call callee) hpop hinst]
  dsimp only [successorsOf]
  rw [hexp]
  simp [derivedState]

/-- Witness for C6: popping the state at the unresolved call (0,0,1) of
`progA` at distance 2 enqueues exactly the state at (0,0,2) at distance 3
with the same (empty) stack. -/
theorem bf_C6_opaque_call_witness :
    doSingleSearchIteration cfgA searcherAtOpaque =
      some (searcherAtCallRest.addToSearchQueue cfgA ⟨⟨0, 0, 2⟩, 3, []⟩) := by
  rw [bf_C6_opaque_call cfgA searcherAtOpaque searcherAtCallRest
    ⟨⟨0, 0, 1⟩, 2, []⟩ none rfl rfl rfl]
  decide

/-- C9: if the popped state's instruction handle is invalid, the
expansion step aborts (`assert` failure, modelled by `none`), and so does
the whole query when the driver reaches that step, rather than silently
absorbing the condition or continuing. -/
theorem bf_C9_invalid_aborts (cfg : Config) (s s1 : BFSearcher)
    (curr : BFSearchState)
    (hpop : s.popFromSeachQueue = some (curr, s1))
    (hbad : cfg.prog.instAt curr.instruction = none) :
    doSingleSearchIteration cfg s = none ∧
    (∀ (fuel : Nat) (t : BFSearchState),
      queueTop? s.searchqueue = some t →
      (t.distanceFromStart < cfg.maxDistance ∧
        s.iterationCounter < cfg.maxIterations) →
      cfg.isTheTarget t = false →
      (searchRun cfg s (fuel + 1)).1 = none) := by
  have habort := doSingleSearchIteration_none_of_invalid cfg s s1 curr hpop hbad
  refine ⟨habort, ?_⟩
  intro fuel t ht hg htar
  rw [searchRun_succ_abort cfg s fuel t ht hg htar habort]

/-- Witness for C9: in `progA` the handle (5,0,0) names no function; the
expansion step on `searcherAtInvalid` aborts. -/
theorem bf_C9_invalid_aborts_witness :
    doSingleSearchIteration cfgA searcherAtInvalid = none :=
  (bf_C9_invalid_aborts cfgA searcherAtInvalid searcherAtCallRest
    ⟨⟨5, 0, 0⟩, 0, []⟩ rfl rfl).1

/-- C8: when the search loop exits without finding the target (empty
frontier, minimum distance no longer below `maxDistance`, or iteration
count no longer below `maxIterations`), the query returns the UNREACHABLE
sentinel `uintMax`, which is distinct from any valid distance whenever
`maxDistance` fits in `uint`; and every non-aborting outcome is either a
(non-negative) distance below `maxDistance` or that sentinel. -/
theorem bf_C8_unreachable_sentinel (cfg : Config) (s : BFSearcher)
    (fuel : Nat) (hmax : cfg.maxDistance ≤ uintMax) :
    (∀ r, (searchRun cfg s fuel).1 = some r →
      r = uintMax ∨ (r < cfg.maxDistance ∧ r ≠ uintMax)) ∧
    (queueTop? s.searchqueue = none →
      (searchRun cfg s (fuel + 1)).1 = some uintMax) ∧
    (∀ t, queueTop? s.searchqueue = some t →
      ¬(t.distanceFromStart < cfg.maxDistance ∧
        s.iterationCounter < cfg.maxIterations) →
      (searchRun cfg s (fuel + 1)).1 = some uintMax) := by
  refine ⟨?_, ?_, ?_⟩
  · intro r hr
    rcases searchRun_fst_cases cfg fuel s r hr with h | h
    · exact Or.inl h
    · right
      exact ⟨h, by omega⟩
  · intro h
    rw [searchRun_succ_empty cfg s fuel h]
  · intro t ht hg
    rw [searchRun_succ_stop cfg s fuel t ht hg]

/-- Witness for C8: on an empty frontier the query returns the
sentinel. -/
theorem bf_C8_unreachable_sentinel_witness :
    (searchRun cfgA emptySearcher 1).1 = some uintMax :=
  (bf_C8_unreachable_sentinel cfgA emptySearcher 0 (by decide)).2.1 rfl

/-- C10: every value `searchForMinimalDistance`'s loop returns other than
the UNREACHABLE sentinel is strictly below `maxDistance`; and a frontier
minimum that satisfies the target predicate but sits at distance
`maxDistance` or more still yields the sentinel. -/
theorem bf_C10_below_maxDistance (cfg : Config) (s : BFSearcher)
    (fuel : Nat) :
    (∀ r, (searchRun cfg s fuel).1 = some r → r ≠ uintMax →
      r < cfg.maxDistance) ∧
    (∀ t, queueTop? s.searchqueue = some t → cfg.isTheTarget t = true →
      cfg.maxDistance ≤ t.distanceFromStart →
      (searchRun cfg s (fuel + 1)).1 = some uintMax) := by
  refine ⟨?_, ?_⟩
  · intro r hr hne
    rcases searchRun_fst_cases cfg fuel s r hr with h | h
    · exact absurd h hne
    · exact h
  · intro t ht htar hge
    have hstop : searchRun cfg s (fuel + 1) = (some uintMax, s, 0) := by
      refine searchRun_succ_stop cfg s fuel t ht ?_
      rintro ⟨hlt, -⟩
      omega
    rw [hstop]

/-- Witness for C10: `searcherFarTarget` holds the target of `cfgD` at
distance 5 ≥ `cfgD.maxDistance` = 1, and the query still returns the
sentinel. -/
theorem bf_C10_below_maxDistance_witness :
    (searchRun cfgD searcherFarTarget 1).1 = some uintMax :=
  (bf_C10_below_maxDistance cfgD searcherFarTarget 0).2
    ⟨⟨0, 0, 3⟩, 5, []⟩ rfl (by decide) (by decide)

/-- C1 counterexample: with `maxQueueLength = 1` (`cfgB`), one expansion
of the branch at (0,0,0) pushes both successors — the admission test
`size() <= maxQueueLength` lets the second one in at size 1 — so the
frontier reaches 2 states, exceeding `maxQueueLength`. -/
theorem bf_C1_size_counterexample :
    cfgB.maxQueueLength = 1 ∧
    (doSingleSearchIteration cfgB
        (BFSearcher.mkFromStart cfgB ⟨0, 0, 0⟩)).map
      (fun s => s.searchqueue.length) = some 2 := by
  decide

/-- C1 (amended): a state is admitted exactly when the frontier's current
size is at most `maxQueueLength`, so during a query the frontier never
holds more than `maxQueueLength + 1` states; a state refused at insertion
time is silently discarded (the queue is otherwise unchanged), and states
are never evicted later. -/
theorem bf_C1_frontier_bound (cfg : Config) (s : BFSearcher)
    (st : BFSearchState) :
    ((s.addToSearchQueue cfg st).searchqueue = st :: s.searchqueue ∨
      (s.addToSearchQueue cfg st).searchqueue = s.searchqueue) ∧
    (s.searchqueue.length ≤ cfg.maxQueueLength + 1 →
      (s.addToSearchQueue cfg st).searchqueue.length ≤
        cfg.maxQueueLength + 1) ∧
    (∀ s', s.searchqueue.length ≤ cfg.maxQueueLength + 1 →
      doSingleSearchIteration cfg s = some s' →
      s'.searchqueue.length ≤ cfg.maxQueueLength + 1) := by
  refine ⟨addToSearchQueue_queue_cases cfg s st, ?_, ?_⟩
  · exact addToSearchQueue_length_le cfg s st
  · intro s' hlen h
    exact doSingleSearchIteration_length_le cfg s s' hlen h

/-- Witness for C1 (amended): admitting one state into the empty searcher
keeps the frontier within `cfgA.maxQueueLength + 1`. -/
theorem bf_C1_frontier_bound_witness :
    (emptySearcher.addToSearchQueue cfgA
        ⟨⟨0, 0, 0⟩, 0, []⟩).searchqueue.length ≤ cfgA.maxQueueLength + 1 :=
  (bf_C1_frontier_bound cfgA emptySearcher ⟨⟨0, 0, 0⟩, 0, []⟩).2.1 (by decide)

/-- C7 counterexample: with `maxQueueLength = 1` (`cfgC`), a full query on
the three-instruction straight-line block performs 3 insertions in total
(the constructor's plus one per expanded instruction) — more than
`maxQueueLength` — because pops keep the current size within the cap. -/
theorem bf_C7_insertions_counterexample :
    cfgC.maxQueueLength = 1 ∧
    (searchRun cfgC (BFSearcher.mkFromStart cfgC ⟨0, 0, 0⟩)
        (cfgC.maxIterations + 1)).2.1.insertions = 3 := by
  decide

/-- C7 (amended): every successful insertion into the frontier happens
while the frontier's current size is at most `maxQueueLength` (so the
frontier never holds more than `maxQueueLength + 1` states at once), and
the total number of expansion steps performed during one query never
exceeds `maxIterations`. -/
theorem bf_C7_totals (cfg : Config) (start : ProgPoint) (s : BFSearcher)
    (st : BFSearchState) (fuel : Nat) :
    ((s.addToSearchQueue cfg st).insertions = s.insertions + 1 →
      s.searchqueue.length ≤ cfg.maxQueueLength) ∧
    (searchRun cfg (BFSearcher.mkFromStart cfg start) fuel).2.2 ≤
      cfg.maxIterations := by
  constructor
  · intro h
    rcases addToSearchQueue_insertions_cases cfg s st with ⟨-, hle⟩ | heq
    · exact hle
    · rw [heq] at h
      omega
  · have hcnt : (BFSearcher.mkFromStart cfg start).iterationCounter = 0 := by
      unfold BFSearcher.mkFromStart
      rw [addToSearchQueue_iterationCounter]
      rfl
    have := searchRun_steps_le cfg fuel (BFSearcher.mkFromStart cfg start)
    omega

/-- Witness for C7 (amended): a query over `progA` from (0,0,0) performs
at most `cfgA.maxIterations` expansion steps. -/
theorem bf_C7_totals_witness :
    (searchRun cfgA (BFSearcher.mkFromStart cfgA ⟨0, 0, 0⟩)
        (cfgA.maxIterations + 1)).2.2 ≤ cfgA.maxIterations :=
  (bf_C7_totals cfgA ⟨0, 0, 0⟩ emptySearcher ⟨⟨0, 0, 0⟩, 0, []⟩
    (cfgA.maxIterations + 1)).2

/-- C5: `wasAddedEarlier` and `rememberAsAdded` act only on states whose
instruction is the first of its basic block — on any other state they
report "not seen" and record nothing — and consequently during one query
(started by either constructor) no two states sharing the same
(block-entry instruction, call stack) pair are ever admitted into the
frontier. -/
theorem bf_C5_no_duplicate_admission (cfg : Config) (start : ProgPoint)
    (stack0 : List ProgPoint) :
    (∀ (s : BFSearcher) (st : BFSearchState), isFirstInBlock st = false →
      s.wasAddedEarlier st = false ∧ s.rememberAsAdded st = s) ∧
    (∀ s' : BFSearcher,
      Reaches cfg (BFSearcher.mkFromStart cfg start) s' ∨
        Reaches cfg (BFSearcher.mkFromStartStack cfg start stack0) s' →
      NoTwoAdmittedShareKey s') := by
  constructor
  · intro s st h
    have h' : ¬(isFirstInBlock st = true) := by simp [h]
    constructor
    · unfold BFSearcher.wasAddedEarlier
      rw [if_neg h']
    · unfold BFSearcher.rememberAsAdded
      rw [if_neg h']
  · rintro s' (hr | hr)
    · exact (filterInv_reaches cfg _ s'
        (filterInv_addToSearchQueue cfg emptySearcher _ filterInv_empty)
        hr).2
    · exact (filterInv_reaches cfg _ s'
        (filterInv_addToSearchQueue cfg emptySearcher _ filterInv_empty)
        hr).2

/-- Witness for C5: a mid-block state is never looked up, and the
freshly constructed searcher over `progA` has no duplicate admissions. -/
theorem bf_C5_no_duplicate_admission_witness :
    emptySearcher.wasAddedEarlier ⟨⟨0, 0, 1⟩, 0, []⟩ = false ∧
    NoTwoAdmittedShareKey (BFSearcher.mkFromStart cfgA ⟨0, 0, 0⟩) :=
  ⟨((bf_C5_no_duplicate_admission cfgA ⟨0, 0, 0⟩ []).1 emptySearcher
      ⟨⟨0, 0, 1⟩, 0, []⟩ (by decide)).1,
   (bf_C5_no_duplicate_admission cfgA ⟨0, 0, 0⟩ []).2 _
      (Or.inl (Reaches.refl _))⟩
